import Mathlib

/-! distributed_lock: a shallow embedding of the lock library and its specification.

Two lock families are embedded.

* `Redis` : the option handling of `redis_lock/option.go`, the client
  construction of `redis_lock/redis.go` and the quorum composite of
  `redis_lock/redlock.go`.
* `Etcd` : the fair mutex of `etcd_lock/concurrency/mutex.go` and the
  predecessor wait of `etcd_lock/concurrency/key.go`, over an explicit,
  arbitrary backend (state passing, every backend call logged with its reply).

Go machine integers are embedded as `Int`; where the source multiplies or
subtracts 64-bit values the result is wrapped with `wrap64`.
-/

/-- Two's-complement wrap of an integer into the range of Go's `int64`. -/
def wrap64 (x : Int) : Int := (x + 2 ^ 63) % 2 ^ 64 - 2 ^ 63

/-- Largest value of Go's `int64`. -/
def maxInt64 : Int := 2 ^ 63 - 1

namespace Redis

/-! ## redis_lock/option.go -/

def DefaultIdleTimeoutSeconds : Int := 10
def DefaultMaxActive : Int := 100
def DefaultMaxIdle : Int := 20
def DefaultLockExpireSeconds : Int := 30
def WatchDogWorkStepSeconds : Int := 10

/-- Go's `time.Millisecond`, in nanoseconds. -/
def Millisecond : Int := 1000000
/-- Go's `time.Second`, in nanoseconds. -/
def Second : Int := 1000000000

/-- The struct `ClientOptions`; the zero value is `{}`. -/
structure ClientOptions where
  maxIdle : Int := 0
  idleTimeoutSeconds : Int := 0
  maxActive : Int := 0
  wait : Bool := false
  network : String := ""
  address : String := ""
  password : String := ""
deriving DecidableEq, Repr

/-- The exported constructors of `ClientOption` (functions `*ClientOptions → ()`). -/
inductive ClientOption where
  | WithMaxIdle (maxIdle : Int)
  | WithIdleTimeoutSeconds (idleTimeoutSeconds : Int)
  | WithMaxActive (maxActive : Int)
  | WithWaitMode
deriving DecidableEq, Repr

/-- Running a `ClientOption` on the options it is given. -/
def ClientOption.run : ClientOption → ClientOptions → ClientOptions
  | .WithMaxIdle n, c => { c with maxIdle := n }
  | .WithIdleTimeoutSeconds n, c => { c with idleTimeoutSeconds := n }
  | .WithMaxActive n, c => { c with maxActive := n }
  | .WithWaitMode, c => { c with wait := true }

def repairClient (c : ClientOptions) : ClientOptions :=
  let c := if c.maxIdle < 0 then { c with maxIdle := DefaultMaxIdle } else c
  let c := if c.idleTimeoutSeconds < 0 then
    { c with idleTimeoutSeconds := DefaultIdleTimeoutSeconds } else c
  if c.maxActive < 0 then { c with maxActive := DefaultMaxActive } else c

/-- The struct `LockOptions`; the zero value is `{}`. -/
structure LockOptions where
  isBlock : Bool := false
  blockWaitingSeconds : Int := 0
  expireSeconds : Int := 0
  watchDogMode : Bool := false
deriving DecidableEq, Repr

/-- The exported constructors of `LockOption`. -/
inductive LockOption where
  | WithBlock
  | WithBlockWaitingSeconds (blockWaitingSeconds : Int)
  | WithExpireSeconds (expireSeconds : Int)
deriving DecidableEq, Repr

def LockOption.run : LockOption → LockOptions → LockOptions
  | .WithBlock, l => { l with isBlock := true }
  | .WithBlockWaitingSeconds n, l => { l with blockWaitingSeconds := n }
  | .WithExpireSeconds n, l => { l with expireSeconds := n }

/-- The loop `for _, opt := range opts { opt(&l) }`. -/
def applyLockOptions (opts : List LockOption) (l : LockOptions) : LockOptions :=
  opts.foldl (fun l opt => opt.run l) l

def repairLock (l : LockOptions) : LockOptions :=
  let l := if l.isBlock && decide (l.blockWaitingSeconds ≤ 0) then
    { l with blockWaitingSeconds := 5 } else l
  if l.expireSeconds > 0 then l
  else { l with expireSeconds := DefaultLockExpireSeconds, watchDogMode := true }

/-- The struct `RedLockOptions`; durations are nanoseconds. -/
structure RedLockOptions where
  singleNodesTimeout : Int := 0
  expireDuration : Int := 0
deriving DecidableEq, Repr

inductive RedLockOption where
  | WithSingleNodesTimeout (singleNodesTimeout : Int)
  | WithRedLockExpireDuration (expireDuration : Int)
deriving DecidableEq, Repr

def RedLockOption.run : RedLockOption → RedLockOptions → RedLockOptions
  | .WithSingleNodesTimeout d, r => { r with singleNodesTimeout := d }
  | .WithRedLockExpireDuration d, r => { r with expireDuration := d }

/-- The constant of redlock.go, `50 * time.Millisecond`. -/
def DefaultSingleLockTimeout : Int := 50 * Millisecond

def repairRedLock (r : RedLockOptions) : RedLockOptions :=
  if r.singleNodesTimeout ≤ 0 then { r with singleNodesTimeout := DefaultSingleLockTimeout }
  else r

/-- The struct `SingleNodeConf`. -/
structure SingleNodeConf where
  Network : String
  Address : String
  Password : String
  Opts : List ClientOption := []
deriving DecidableEq, Repr

/-! ## redis_lock/redis.go -/

/-- The arguments of the call `redis.DialContext(ctx, network, address, dialOpts...)`;
`dialPassword` is the argument of `redis.DialPassword` when that option is passed. -/
structure DialCall where
  network : String
  address : String
  dialPassword : Option String
deriving DecidableEq, Repr

/-- The method `getRedisConn`, up to the dial it issues; `none` is the panic on an
empty address. -/
def getRedisConn (c : ClientOptions) : Option DialCall :=
  if c.address = "" then none
  else
    some { network := c.network, address := c.address,
           dialPassword := if c.password.length > 0 then some c.password else none }

/-- The fields of `redis.Pool` that `getRedisPool` sets, the connection test
`TestOnBorrow` apart; `Dial` is the closure over the client's options. -/
structure Pool where
  MaxIdle : Int
  IdleTimeout : Int
  Dial : Unit → Option DialCall
  MaxActive : Int
  Wait : Bool

def getRedisPool (c : ClientOptions) : Pool :=
  { MaxIdle := c.maxIdle
    IdleTimeout := wrap64 (c.idleTimeoutSeconds * Second)
    Dial := fun _ => getRedisConn c
    MaxActive := c.maxActive
    Wait := c.wait }

/-- The struct `Client`: the embedded options and the pool. -/
structure Client where
  opts : ClientOptions := {}
  pool : Pool

def NewClient (network address password : String) (opts : List ClientOption) : Client :=
  let c : ClientOptions := { network := network, address := address, password := password }
  let c := opts.foldl (fun c opt => opt.run c) c
  let c := repairClient c
  let pool := getRedisPool c
  { pool := pool }

/-! ## redis_lock/redlock.go -/

/-- Modelled from the spec: `NewRedisLock(key, client, opts…)` and the struct it
returns live in a file that is not part of the sources at hand. Per the spec a
KS-Lock is bound to its key and client and carries the lock options, which are
the supplied options applied to the zero value and then repaired. -/
structure RedisLock where
  key : String
  client : Client
  opts : LockOptions

/-- Modelled from the spec: the constructor of `RedisLock` (see `RedisLock`). -/
def NewRedisLock (key : String) (client : Client) (opts : List LockOption) : RedisLock :=
  { key := key, client := client, opts := repairLock (applyLockOptions opts {}) }

/-- The struct `RedLock`: the children and the embedded options. -/
structure RedLock where
  locks : List RedisLock := []
  opts : RedLockOptions := {}

/-- The product `time.Duration(len(confs)) * r.singleNodesTimeout * 10` in Go's
wrapping 64-bit arithmetic. -/
def acquireBudget (n : Nat) (singleNodesTimeout : Int) : Int :=
  wrap64 (wrap64 ((n : Int) * singleNodesTimeout) * 10)

/-- The constructor `NewRedLock`. `toSeconds` stands for the floating-point
conversion `int64(d.Seconds())`, which only feeds the children's TTL option. -/
def NewRedLock (toSeconds : Int → Int) (key : String) (confs : List SingleNodeConf)
    (opts : List RedLockOption) : Except String RedLock :=
  if confs.length < 3 then .error "can not use redLock less then 3 nodes"
  else
    let o : RedLockOptions := opts.foldl (fun r opt => opt.run r) {}
    let o := repairRedLock o
    if o.expireDuration > 0 ∧ acquireBudget confs.length o.singleNodesTimeout > o.expireDuration
    then .error "expire thresholds of single node is too lang"
    else
      let locks := confs.foldl (fun locks conf =>
        let client := NewClient conf.Address conf.Network conf.Password conf.Opts
        locks ++ [NewRedisLock key client [.WithExpireSeconds (toSeconds o.expireDuration)]]) []
      .ok { locks := locks, opts := o }

/-- What one child's `Lock` call did: the error it returned, if any, and the
duration `time.Since(startTime)` measured around it. -/
structure Attempt where
  err : Option String
  cost : Int
deriving DecidableEq, Repr

/-- The loop of `RedLock.Lock`: `successCnt` after visiting the children in order;
`call i lock` is what the `i`-th child's `Lock` did. -/
def RedLock.successCnt (r : RedLock) (call : Nat → RedisLock → Attempt) : Nat :=
  r.locks.enum.foldl (fun cnt p =>
    let a := call p.1 p.2
    if a.err = none ∧ a.cost ≤ r.opts.singleNodesTimeout then cnt + 1 else cnt) 0

/-- The method `RedLock.Lock`; `none` is the nil error. -/
def RedLock.Lock (r : RedLock) (call : Nat → RedisLock → Attempt) : Option String :=
  if r.successCnt call < (r.locks.length >>> 1) + 1 then some "lock failed" else none

end Redis

namespace Etcd

/-! ## The backend interface consumed by etcd_lock/concurrency -/

/-- Error values. The three sentinels of mutex.go, the two errors the package
builds itself, and the errors that come from the backend or the caller's context. -/
inductive Err where
  | ErrLocked
  | ErrSessionExpired
  | ErrLockReleased
  | invalidKey (key pfx : String)
  | lostWatcher
  | backend (msg : String)
deriving DecidableEq, Repr

/-- A context handle: the caller's contexts and the client's base context are
told apart by their number. -/
abbrev Ctx := Nat

/-- The field of `pb.ResponseHeader` the package reads. -/
structure ResponseHeader where
  Revision : Int
deriving DecidableEq, Repr

/-- The fields of `mvccpb.KeyValue` the package reads. -/
structure KeyValue where
  Key : String
  CreateRevision : Int
deriving DecidableEq, Repr

/-- One entry of `TxnResponse.Responses`; only a range response carries `Kvs`. -/
inductive ResponseOp where
  | range (kvs : List KeyValue)
  | put
  | deleteRange
  | txn
deriving DecidableEq, Repr

structure TxnResponse where
  Header : ResponseHeader
  Succeeded : Bool
  Responses : List ResponseOp
deriving DecidableEq, Repr

structure GetResponse where
  Header : ResponseHeader
  Kvs : List KeyValue
deriving DecidableEq, Repr

/-- The options of a `client.Get`: none, or `WithLastCreate()` together with
`WithMaxCreateRev(rev)`. -/
inductive GetOpts where
  | plain
  | lastCreateMaxRev (maxCreateRev : Int)
deriving DecidableEq, Repr

inductive EventType where
  | PUT
  | DELETE
deriving DecidableEq, Repr

/-- One `v3.WatchResponse`: the types of its events and the value of its `Err()`. -/
structure WatchResponse where
  Events : List EventType
  err : Option Err
deriving DecidableEq, Repr

/-- What a watch channel delivers: `closed rs` delivers `rs` and is then closed,
`hang rs` delivers `rs` and then stays open and silent for ever. -/
inductive WatchStream where
  | closed (rs : List WatchResponse)
  | hang (rs : List WatchResponse)
deriving DecidableEq, Repr

/-- The acquire transaction of `tryAcquire`:
`If(CreateRevision(key) = 0).Then(Put(key, "", lease), Get(pfx, first create)).Else(Get(key), Get(pfx, first create))`. -/
structure TxnReq where
  key : String
  pfx : String
  lease : Int
deriving DecidableEq, Repr

/-- A backend call together with the reply it got. -/
inductive Event where
  | txn (ctx : Ctx) (req : TxnReq) (reply : Except Err TxnResponse)
  | get (ctx : Ctx) (key : String) (opts : GetOpts) (reply : Except Err GetResponse)
  | delete (ctx : Ctx) (key : String) (reply : Option Err)
  | watch (ctx : Ctx) (key : String) (rev : Int) (reply : WatchStream)

/-- An arbitrary backend over its own state `σ`: every call returns a reply and
the next state. `ctxErr` is `ctx.Err()`. -/
structure Backend (σ : Type) where
  Txn : σ → Ctx → TxnReq → Except Err TxnResponse × σ
  Get : σ → Ctx → String → GetOpts → Except Err GetResponse × σ
  Delete : σ → Ctx → String → Option Err × σ
  Watch : σ → Ctx → String → Int → WatchStream × σ
  ctxErr : σ → Ctx → Option Err

/-- The backend state and the log of the calls issued so far, oldest first. -/
structure World (σ : Type) where
  st : σ
  log : List Event

/-- Why a call does not return: a runtime panic (index out of range, nil
dereference), a watch that blocks for ever, or the loop bound being used up. -/
inductive Stop where
  | panic
  | blocked
  | fuel
deriving DecidableEq, Repr

def World.txn {σ : Type} (b : Backend σ) (w : World σ) (ctx : Ctx) (req : TxnReq) :
    Except Err TxnResponse × World σ :=
  let r := b.Txn w.st ctx req
  (r.1, { st := r.2, log := w.log ++ [Event.txn ctx req r.1] })

def World.get {σ : Type} (b : Backend σ) (w : World σ) (ctx : Ctx) (key : String)
    (opts : GetOpts) : Except Err GetResponse × World σ :=
  let r := b.Get w.st ctx key opts
  (r.1, { st := r.2, log := w.log ++ [Event.get ctx key opts r.1] })

def World.delete {σ : Type} (b : Backend σ) (w : World σ) (ctx : Ctx) (key : String) :
    Option Err × World σ :=
  let r := b.Delete w.st ctx key
  (r.1, { st := r.2, log := w.log ++ [Event.delete ctx key r.1] })

def World.watch {σ : Type} (b : Backend σ) (w : World σ) (ctx : Ctx) (key : String)
    (rev : Int) : WatchStream × World σ :=
  let r := b.Watch w.st ctx key rev
  (r.1, { st := r.2, log := w.log ++ [Event.watch ctx key rev r.1] })

/-! ## etcd_lock/concurrency/key.go -/

/-- Whether a watch response carries a DELETE event. -/
def WatchResponse.hasDelete (wr : WatchResponse) : Bool :=
  wr.Events.any (fun t => decide (t = EventType.DELETE))

/-- The value of `wr.Err()` after the `range` loop: `wr` is the last response
received, or the zero value when none was. -/
def lastWatchErr (rs : List WatchResponse) : Option Err :=
  match rs.getLast? with
  | some wr => wr.err
  | none => none

/-- The body of `waitDelete` once the watch channel is known: nil at the first
response with a DELETE event; after the channel closes the watch's error, then
the context's error, then the synthetic lost-watcher error. -/
def waitDeleteOn (stream : WatchStream) (ctxErr : Option Err) : Except Stop (Option Err) :=
  match stream with
  | .closed rs =>
    if rs.any WatchResponse.hasDelete then .ok none
    else
      match lastWatchErr rs with
      | some e => .ok (some e)
      | none =>
        match ctxErr with
        | some e => .ok (some e)
        | none => .ok (some Err.lostWatcher)
  | .hang rs =>
    if rs.any WatchResponse.hasDelete then .ok none else .error Stop.blocked

def waitDelete {σ : Type} (b : Backend σ) (w : World σ) (ctx : Ctx) (key : String) (rev : Int) :
    Except Stop (Option Err × World σ) :=
  let r := World.watch b w ctx key rev
  match waitDeleteOn r.1 (b.ctxErr r.2.st ctx) with
  | .ok e => .ok (e, r.2)
  | .error s => .error s

/-- The loop of `waitDeletes`; `fuel` bounds the number of rounds. -/
def waitDeletes {σ : Type} (b : Backend σ) (ctx : Ctx) (pfx : String) (maxCreateRev : Int) :
    Nat → World σ → Except Stop (Option Err × World σ)
  | 0, _ => .error Stop.fuel
  | fuel + 1, w =>
    let r := World.get b w ctx pfx (GetOpts.lastCreateMaxRev maxCreateRev)
    match r.1 with
    | .error e => .ok (some e, r.2)
    | .ok resp =>
      match resp.Kvs with
      | [] => .ok (none, r.2)
      | kv :: _ =>
        match waitDelete b r.2 ctx kv.Key resp.Header.Revision with
        | .error s => .error s
        | .ok (some e, w1) => .ok (some e, w1)
        | .ok (none, w1) => waitDeletes b ctx pfx maxCreateRev fuel w1

/-! ## etcd_lock/concurrency/mutex.go -/

/-- The part of `Session` the mutex uses: the lease id and the client's base
context `client.Ctx()`. -/
structure Session where
  id : Int
  clientCtx : Ctx
deriving DecidableEq, Repr

/-- The struct `Mutex`; `hdr` is `none` for the nil pointer. -/
structure Mutex where
  s : Session
  pfx : String
  myKey : String
  myRev : Int
  hdr : Option ResponseHeader
deriving DecidableEq, Repr

def NewMutex (s : Session) (pfx : String) : Mutex :=
  { s := s, pfx := pfx ++ "/", myKey := "", myRev := -1, hdr := none }

/-- The tombstone my-key of a released mutex, the one-byte string of Go's `"\x00"`. -/
def tombstone : String := String.mk [Char.ofNat 0]

/-- The verb `%x` of `fmt.Sprintf` on a signed 64-bit integer. -/
def hex (n : Int) : String :=
  if n < 0 then "-" ++ String.mk (Nat.toDigits 16 n.natAbs)
  else String.mk (Nat.toDigits 16 n.natAbs)

/-- The expression `resp.Responses[i].GetResponseRange().Kvs`; `none` is the panic
of an index out of range or of a response that is no range response. -/
def rangeKvs (resp : TxnResponse) (i : Nat) : Option (List KeyValue) :=
  match resp.Responses.get? i with
  | some (ResponseOp.range kvs) => some kvs
  | _ => none

def tryAcquire {σ : Type} (b : Backend σ) (m : Mutex) (ctx : Ctx) (w : World σ) :
    Except Stop (Except Err TxnResponse × Mutex × World σ) :=
  let m := { m with myKey := m.pfx ++ hex m.s.id }
  let r := World.txn b w ctx { key := m.myKey, pfx := m.pfx, lease := m.s.id }
  match r.1 with
  | .error e => .ok (.error e, m, r.2)
  | .ok resp =>
    let m := { m with myRev := resp.Header.Revision }
    if resp.Succeeded then .ok (.ok resp, m, r.2)
    else
      match rangeKvs resp 0 with
      | some (kv :: _) => .ok (.ok resp, { m with myRev := kv.CreateRevision }, r.2)
      | _ => .error Stop.panic

/-- The owner test shared by `TryLock` and `Lock`:
`len(ownerKey) == 0 || ownerKey[0].CreateRevision == m.myRev`. -/
def isOwner (ownerKey : List KeyValue) (myRev : Int) : Bool :=
  match ownerKey with
  | [] => true
  | kv :: _ => decide (kv.CreateRevision = myRev)

def Unlock {σ : Type} (b : Backend σ) (m : Mutex) (ctx : Ctx) (w : World σ) :
    Option Err × Mutex × World σ :=
  if m.myKey = "" ∨ m.myRev ≤ 0 ∨ m.myKey = tombstone then (some Err.ErrLockReleased, m, w)
  else if ¬ (m.pfx.data.isPrefixOf m.myKey.data = true) then
    (some (Err.invalidKey m.myKey m.pfx), m, w)
  else
    let r := World.delete b w ctx m.myKey
    match r.1 with
    | some e => (some e, m, r.2)
    | none => (none, { m with myKey := tombstone, myRev := -1 }, r.2)

def TryLock {σ : Type} (b : Backend σ) (m : Mutex) (ctx : Ctx) (w : World σ) :
    Except Stop (Option Err × Mutex × World σ) :=
  match tryAcquire b m ctx w with
  | .error s => .error s
  | .ok (.error e, m, w) => .ok (some e, m, w)
  | .ok (.ok resp, m, w) =>
    match rangeKvs resp 1 with
    | none => .error Stop.panic
    | some ownerKey =>
      if isOwner ownerKey m.myRev then .ok (none, { m with hdr := some resp.Header }, w)
      else
        let r := World.delete b w ctx m.myKey
        match r.1 with
        | some e => .ok (some e, m, r.2)
        | none => .ok (some Err.ErrLocked, { m with myKey := tombstone, myRev := -1 }, r.2)

/-- The method `Lock`; `fuel` bounds the rounds of the predecessor wait. -/
def Lock {σ : Type} (b : Backend σ) (fuel : Nat) (m : Mutex) (ctx : Ctx) (w : World σ) :
    Except Stop (Option Err × Mutex × World σ) :=
  match tryAcquire b m ctx w with
  | .error s => .error s
  | .ok (.error e, m, w) => .ok (some e, m, w)
  | .ok (.ok resp, m, w) =>
    match rangeKvs resp 1 with
    | none => .error Stop.panic
    | some ownerKey =>
      if isOwner ownerKey m.myRev then .ok (none, { m with hdr := some resp.Header }, w)
      else
        match waitDeletes b ctx m.pfx (wrap64 (m.myRev - 1)) fuel w with
        | .error s => .error s
        | .ok (some werr, w) =>
          let u := Unlock b m m.s.clientCtx w
          .ok (some werr, u.2.1, u.2.2)
        | .ok (none, w) =>
          let g := World.get b w ctx m.myKey GetOpts.plain
          match g.1 with
          | .error werr =>
            let u := Unlock b m m.s.clientCtx g.2
            .ok (some werr, u.2.1, u.2.2)
          | .ok gresp =>
            if gresp.Kvs.length = 0 then .ok (some Err.ErrSessionExpired, m, g.2)
            else .ok (none, { m with hdr := some gresp.Header }, g.2)

/-! ## A scripted backend, for concrete runs -/

/-- One scripted reply. -/
inductive Reply where
  | txn (r : Except Err TxnResponse)
  | get (r : Except Err GetResponse)
  | delete (r : Option Err)
  | watch (r : WatchStream)

/-- The backend that answers each call with the next scripted reply; a call that
finds no reply of its kind fails with a backend error (a watch: closes at once). -/
def scripted : Backend (List Reply) where
  Txn := fun st _ _ =>
    match st with
    | Reply.txn r :: rest => (r, rest)
    | _ => (.error (Err.backend "unscripted"), st.tail)
  Get := fun st _ _ _ =>
    match st with
    | Reply.get r :: rest => (r, rest)
    | _ => (.error (Err.backend "unscripted"), st.tail)
  Delete := fun st _ _ =>
    match st with
    | Reply.delete r :: rest => (r, rest)
    | _ => (some (Err.backend "unscripted"), st.tail)
  Watch := fun st _ _ _ =>
    match st with
    | Reply.watch r :: rest => (r, rest)
    | _ => (WatchStream.closed [], st.tail)
  ctxErr := fun _ _ => none

end Etcd

/-! ## Specification-side notions and concrete inputs -/

namespace Redis

/-- The number of children whose `Lock` returned no error within the per-node
timeout. -/
def RedLock.acquired (r : RedLock) (call : Nat → RedisLock → Attempt) : Nat :=
  (r.locks.enum.filter (fun p =>
    decide ((call p.1 p.2).err = none ∧ (call p.1 p.2).cost ≤ r.opts.singleNodesTimeout))).length

/-- The conversion `int64(d.Seconds())` on a duration of a whole number of seconds,
where the floating-point value is exact; any other duration is truncated toward
zero here, while the source rounds it through `float64` first. -/
def wholeSeconds (d : Int) : Int := Int.tdiv d Second

/-- A node configuration on the local host. -/
def nodeConf (port : String) : SingleNodeConf :=
  { Network := "tcp", Address := "127.0.0.1:" ++ port, Password := "" }

/-- Scenario S5: five nodes with a per-node timeout of 50 ms. -/
def s5RedLock : Except String RedLock :=
  NewRedLock wholeSeconds "job"
    [nodeConf "7001", nodeConf "7002", nodeConf "7003", nodeConf "7004", nodeConf "7005"]
    [RedLockOption.WithSingleNodesTimeout (50 * Millisecond)]

/-- Scenario S5: nodes 1 to 3 answer within 10 ms, node 4 after 200 ms, node 5 errors. -/
def s5Call (i : Nat) (_ : RedisLock) : Attempt :=
  if i < 3 then { err := none, cost := 10 * Millisecond }
  else if i = 3 then { err := none, cost := 200 * Millisecond }
  else { err := some "connection refused", cost := 1 * Millisecond }

/-- Scenario S6: three nodes. -/
def s6Confs : List SingleNodeConf := [nodeConf "7001", nodeConf "7002", nodeConf "7003"]

/-- Scenario S6: per-node timeout 50 ms, expire duration 1 s. -/
def s6Opts : List RedLockOption :=
  [RedLockOption.WithSingleNodesTimeout (50 * Millisecond),
   RedLockOption.WithRedLockExpireDuration (1 * Second)]

/-- A per-node timeout of about 9.7 years, with an expire duration of 1 s. -/
def hugeTimeoutOpts : List RedLockOption :=
  [RedLockOption.WithSingleNodesTimeout 307445734561825861,
   RedLockOption.WithRedLockExpireDuration (1 * Second)]

/-- The options as configured, before `repairRedLock`. -/
def configured (opts : List RedLockOption) : RedLockOptions :=
  opts.foldl (fun r opt => opt.run r) {}

/-- The per-node timeout of the spec: the configured value when positive, else 50 ms. -/
def perNodeTimeout (opts : List RedLockOption) : Int :=
  if (configured opts).singleNodesTimeout > 0 then (configured opts).singleNodesTimeout
  else 50 * Millisecond

/-- A node whose three fields differ. -/
def sampleConf : SingleNodeConf :=
  { Network := "tcp", Address := "10.0.0.1:6379", Password := "secret" }

/-- Three nodes, the first being `sampleConf`. -/
def sampleConfs : List SingleNodeConf := [sampleConf, nodeConf "7002", nodeConf "7003"]

/-- The value picked by the last element of a list on which `f` is defined. -/
def lastSome {α β : Type} (f : α → Option β) (l : List α) : Option β :=
  l.reverse.findSome? f

/-- The ExpireSeconds a list of lock options configures, if any. -/
def configuredExpire (opts : List LockOption) : Option Int :=
  lastSome (fun o => match o with
    | LockOption.WithExpireSeconds v => some v
    | _ => none) opts

/-- The BlockWaitingSeconds a list of lock options configures; 0 when unset. -/
def configuredBlockWaiting (opts : List LockOption) : Int :=
  (lastSome (fun o => match o with
    | LockOption.WithBlockWaitingSeconds v => some v
    | _ => none) opts).getD 0

/-- The client options as configured by `NewClient`, before `repairClient`. -/
def configuredClient (network address password : String) (opts : List ClientOption) :
    ClientOptions :=
  opts.foldl (fun c opt => opt.run c)
    { network := network, address := address, password := password }

end Redis

namespace Etcd

/-- The range query of `waitDeletes`: the key under `pfx` with the largest create
revision that is at most `maxCreateRev`, together with the reply it got. -/
def lastCreateQuery (ctx : Ctx) (pfx : String) (maxCreateRev : Int)
    (reply : Except Err GetResponse) : Event :=
  Event.get ctx pfx (GetOpts.lastCreateMaxRev maxCreateRev) reply

/-- The responses a watch channel delivers before it closes or falls silent. -/
def WatchStream.delivered : WatchStream → List WatchResponse
  | .closed rs => rs
  | .hang rs => rs

/-- A DELETE event is among the events the watch channel delivers. -/
def WatchStream.deletionSeen (stream : WatchStream) : Prop :=
  ∃ wr, wr ∈ stream.delivered ∧ EventType.DELETE ∈ wr.Events

/-- The error of a wait whose watch channel delivered `rs` and closed without a
DELETE event, `cerr` being the context's error at that moment: the error of the
last response delivered when it has one, otherwise the context's error when it
has one, otherwise the lost-watcher error. -/
inductive WaitFailure (rs : List WatchResponse) (cerr : Option Err) : Err → Prop where
  | watchError (init : List WatchResponse) (wr : WatchResponse) (e : Err) :
      rs = init ++ [wr] → wr.err = some e → WaitFailure rs cerr e
  | contextError (e : Err) :
      (∀ init wr, rs = init ++ [wr] → wr.err = none) → cerr = some e → WaitFailure rs cerr e
  | lostWatcher :
      (∀ init wr, rs = init ++ [wr] → wr.err = none) → cerr = none →
      WaitFailure rs cerr Err.lostWatcher

/-- A complete run of `waitDeletes(ctx, pfx, maxCreateRev)` against the backend
`b`: the backend state it starts in, the calls it issues with their replies, the
value it returns and the backend state it ends in.

* The range query fails: the run ends and returns the query's error.
* The range query finds no key: the run ends and returns nil.
* The range query finds a key: the key is watched, exactly that key, from the
  revision of the query's header. If the watch closes without a DELETE event the
  run ends and returns the wait's error (`WaitFailure`); if a DELETE event is
  delivered the run goes on with the next query. -/
inductive WaitRun {σ : Type} (b : Backend σ) (ctx : Ctx) (pfx : String) (maxCreateRev : Int) :
    σ → List Event → Option Err → σ → Prop where
  | queryFailed (st st1 : σ) (e : Err) :
      b.Get st ctx pfx (GetOpts.lastCreateMaxRev maxCreateRev) = (.error e, st1) →
      WaitRun b ctx pfx maxCreateRev st
        [lastCreateQuery ctx pfx maxCreateRev (.error e)] (some e) st1
  | noKey (st st1 : σ) (hdr : ResponseHeader) :
      b.Get st ctx pfx (GetOpts.lastCreateMaxRev maxCreateRev)
        = (.ok { Header := hdr, Kvs := [] }, st1) →
      WaitRun b ctx pfx maxCreateRev st
        [lastCreateQuery ctx pfx maxCreateRev (.ok { Header := hdr, Kvs := [] })] none st1
  | waitFailed (st st1 st2 : σ) (resp : GetResponse) (kv : KeyValue) (rest : List KeyValue)
      (rs : List WatchResponse) (e : Err) :
      b.Get st ctx pfx (GetOpts.lastCreateMaxRev maxCreateRev) = (.ok resp, st1) →
      resp.Kvs = kv :: rest →
      b.Watch st1 ctx kv.Key resp.Header.Revision = (WatchStream.closed rs, st2) →
      ¬ (WatchStream.closed rs).deletionSeen →
      WaitFailure rs (b.ctxErr st2 ctx) e →
      WaitRun b ctx pfx maxCreateRev st
        [lastCreateQuery ctx pfx maxCreateRev (.ok resp),
         Event.watch ctx kv.Key resp.Header.Revision (WatchStream.closed rs)] (some e) st2
  | deleted (st st1 st2 st3 : σ) (resp : GetResponse) (kv : KeyValue) (rest : List KeyValue)
      (stream : WatchStream) (tr : List Event) (res : Option Err) :
      b.Get st ctx pfx (GetOpts.lastCreateMaxRev maxCreateRev) = (.ok resp, st1) →
      resp.Kvs = kv :: rest →
      b.Watch st1 ctx kv.Key resp.Header.Revision = (stream, st2) →
      stream.deletionSeen →
      WaitRun b ctx pfx maxCreateRev st2 tr res st3 →
      WaitRun b ctx pfx maxCreateRev st
        (lastCreateQuery ctx pfx maxCreateRev (.ok resp) ::
          Event.watch ctx kv.Key resp.Header.Revision stream :: tr) res st3

/-- A watch stream that delivers a PUT event and closes with the error "compacted". -/
def watchBroken : WatchStream :=
  WatchStream.closed [{ Events := [EventType.PUT], err := some (Err.backend "compacted") }]

/-- A session with lease 0x1234 whose client has base context 0. -/
def session1 : Session := { id := 4660, clientCtx := 0 }

/-- A mutex on "/jobs/x" that holds its key at create revision 101. -/
def heldMutex : Mutex :=
  { s := session1, pfx := "/jobs/x/", myKey := "/jobs/x/1234", myRev := 101, hdr := none }

/-- An empty log over the given script. -/
def startWith (script : List Reply) : World (List Reply) := { st := script, log := [] }

/-- The acquire transaction committed at revision 102 behind an owner key created
at revision 101. -/
def behindOwner : TxnResponse :=
  { Header := { Revision := 102 }, Succeeded := true,
    Responses := [ResponseOp.put,
      ResponseOp.range [{ Key := "/jobs/x/aaaa", CreateRevision := 101 }]] }

/-- A watch stream that delivers one DELETE event and closes. -/
def deleteSeen : WatchStream :=
  WatchStream.closed [{ Events := [EventType.DELETE], err := none }]

/-- The reply of a range query that finds the predecessor key. -/
def predecessorFound : GetResponse :=
  { Header := { Revision := 103 }, Kvs := [{ Key := "/jobs/x/aaaa", CreateRevision := 101 }] }

/-- The reply of a range query that finds no key. -/
def nothingFound : GetResponse := { Header := { Revision := 104 }, Kvs := [] }

/-- A mutex on "/jobs/x" fresh from `NewMutex`, bound to `session1`. -/
def freshMutex : Mutex := NewMutex session1 "/jobs/x"

/-- The mutex once `tryAcquire` has put its key at revision 102. -/
def queuedMutex : Mutex :=
  { s := session1, pfx := "/jobs/x/", myKey := "/jobs/x/1234", myRev := 102, hdr := none }

/-- The request of the acquire transaction of `freshMutex`. -/
def acquireReq : TxnReq := { key := "/jobs/x/1234", pfx := "/jobs/x/", lease := 4660 }

/-- The reply of the re-read of my-key when the lease has expired. -/
def keyLost : GetResponse := { Header := { Revision := 105 }, Kvs := [] }

/-- Scenario S2: the acquire commits behind an owner, the owner's key is deleted,
no predecessor is left, and the re-read of my-key finds nothing. -/
def sessionDeathScript : List Reply :=
  [Reply.txn (.ok behindOwner), Reply.get (.ok predecessorFound), Reply.watch deleteSeen,
   Reply.get (.ok nothingFound), Reply.get (.ok keyLost), Reply.delete none]

/-- The log of `Lock` on scenario S2. -/
def sessionDeathLog : List Event :=
  [Event.txn 1 acquireReq (.ok behindOwner),
   lastCreateQuery 1 "/jobs/x/" 101 (.ok predecessorFound),
   Event.watch 1 "/jobs/x/aaaa" 103 deleteSeen,
   lastCreateQuery 1 "/jobs/x/" 101 (.ok nothingFound),
   Event.get 1 "/jobs/x/1234" GetOpts.plain (.ok keyLost)]

end Etcd

/-! ## Theorems -/

theorem wrap64_eq_self {x : Int} (h1 : -(2 ^ 63) ≤ x) (h2 : x < 2 ^ 63) : wrap64 x = x := by
  unfold wrap64
  rw [Int.emod_eq_of_lt (by omega) (by omega)]
  omega

namespace Redis

theorem foldl_count_eq {α : Type} (p : α → Prop) [DecidablePred p] (l : List α) (n : Nat) :
    l.foldl (fun cnt a => if p a then cnt + 1 else cnt) n
      = n + (l.filter (fun a => decide (p a))).length := by
  induction l generalizing n with
  | nil => simp
  | cons a t ih =>
    simp only [List.foldl_cons, List.filter_cons]
    rw [ih]
    by_cases h : p a
    · simp [h]; omega
    · simp [h]

theorem successCnt_eq_acquired (r : RedLock) (call : Nat → RedisLock → Attempt) :
    r.successCnt call = r.acquired call := by
  unfold RedLock.successCnt RedLock.acquired
  rw [foldl_count_eq (fun p : Nat × RedisLock =>
    (call p.1 p.2).err = none ∧ (call p.1 p.2).cost ≤ r.opts.singleNodesTimeout)]
  simp

/-- C2. Redlock majority: `RedLock.Lock` returns nil exactly when the number of
children that returned no error within the per-node timeout is at least
⌊N/2⌋+1, and returns the error "lock failed" otherwise; in scenario S5 (five
children, three in time, one late, one failing) it returns nil. -/
theorem redlock_majority :
    (∀ (r : RedLock) (call : Nat → RedisLock → Attempt),
      (r.Lock call = none ↔ r.locks.length / 2 + 1 ≤ r.acquired call) ∧
      (¬ (r.locks.length / 2 + 1 ≤ r.acquired call) → r.Lock call = some "lock failed")) ∧
    (∃ r, s5RedLock = .ok r ∧ r.locks.length = 5 ∧ r.acquired s5Call = 3 ∧
      r.Lock s5Call = none) := by
  refine ⟨?_, ?_⟩
  · intro r call
    unfold RedLock.Lock
    rw [successCnt_eq_acquired, Nat.shiftRight_eq_div_pow]
    simp only [pow_one]
    constructor
    · constructor
      · intro h
        by_contra hc
        rw [if_pos (by omega)] at h
        exact absurd h (by simp)
      · intro h
        rw [if_neg (by omega)]
    · intro h
      rw [if_pos (by omega)]
  · refine ⟨_, rfl, ?_, ?_, ?_⟩
    · rfl
    · decide
    · decide

theorem foldl_append_map {α β : Type} (f : α → β) (l : List α) (acc : List β) :
    l.foldl (fun locks a => locks ++ [f a]) acc = acc ++ l.map f := by
  induction l generalizing acc with
  | nil => simp
  | cons a t ih => simp [ih]

/-- The children `NewRedLock` builds, one per configuration, in order. -/
theorem NewRedLock_ok_locks (toSeconds : Int → Int) (key : String)
    (confs : List SingleNodeConf) (opts : List RedLockOption) (r : RedLock)
    (h : NewRedLock toSeconds key confs opts = .ok r) :
    r.locks = confs.map (fun conf =>
      NewRedisLock key (NewClient conf.Address conf.Network conf.Password conf.Opts)
        [.WithExpireSeconds (toSeconds r.opts.expireDuration)]) := by
  unfold NewRedLock at h
  split at h
  · exact absurd h (by simp)
  · simp only at h
    split at h
    · exact absurd h (by simp)
    · simp only [Except.ok.injEq] at h
      subst h
      simp [foldl_append_map]

theorem repairRedLock_timeout (opts : List RedLockOption) :
    (repairRedLock (configured opts)).singleNodesTimeout = perNodeTimeout opts ∧
    (repairRedLock (configured opts)).expireDuration = (configured opts).expireDuration := by
  unfold repairRedLock perNodeTimeout DefaultSingleLockTimeout
  by_cases h : (configured opts).singleNodesTimeout ≤ 0
  · rw [if_pos h, if_neg (by omega)]
    simp
  · rw [if_neg h, if_pos (by omega)]
    simp

theorem perNodeTimeout_pos (opts : List RedLockOption) : 0 < perNodeTimeout opts := by
  unfold perNodeTimeout
  split
  · omega
  · decide

theorem acquireBudget_exact (n : Nat) (t : Int) (ht : 0 < t)
    (h : (n : Int) * t * 10 ≤ maxInt64) : acquireBudget n t = (n : Int) * t * 10 := by
  unfold maxInt64 at h
  have hn : (0 : Int) ≤ (n : Int) * t := Int.mul_nonneg (Int.ofNat_nonneg n) (le_of_lt ht)
  unfold acquireBudget
  rw [@wrap64_eq_self ((n : Int) * t) (by omega) (by omega)]
  rw [wrap64_eq_self (by omega) (by omega)]

/-- C3 as stated fails: with three nodes, a per-node timeout of 307445734561825861 ns
and an expire duration of 1 s, the exact product N · t · 10 exceeds the expire
duration, yet the constructor returns a RedLock with three children. -/
theorem NewRedLock_exact_product_counterexample :
    ¬ ((3 : Int) < 3) ∧ (configured hugeTimeoutOpts).expireDuration > 0 ∧
    (3 : Int) * perNodeTimeout hugeTimeoutOpts * 10 > (configured hugeTimeoutOpts).expireDuration ∧
    ∃ r, NewRedLock wholeSeconds "job" s6Confs hugeTimeoutOpts = .ok r ∧ r.locks.length = 3 := by
  refine ⟨by decide, by decide, by decide, _, rfl, rfl⟩

/-- C3, amended. Whenever the product N · t · 10 fits in a signed 64-bit integer,
`NewRedLock` returns an error if and only if N < 3, or an expire duration > 0 is
set and N · t · 10 > expireDuration, where t is the configured per-node timeout
when > 0 and 50 ms otherwise; in every other case it returns a RedLock with
exactly N children. -/
theorem NewRedLock_error_iff (toSeconds : Int → Int) (key : String)
    (confs : List SingleNodeConf) (opts : List RedLockOption)
    (hfit : (confs.length : Int) * perNodeTimeout opts * 10 ≤ maxInt64) :
    ((∃ e, NewRedLock toSeconds key confs opts = .error e) ↔
      (confs.length < 3 ∨
        ((configured opts).expireDuration > 0 ∧
          (confs.length : Int) * perNodeTimeout opts * 10 > (configured opts).expireDuration))) ∧
    (¬ (confs.length < 3 ∨
        ((configured opts).expireDuration > 0 ∧
          (confs.length : Int) * perNodeTimeout opts * 10 > (configured opts).expireDuration)) →
      ∃ r, NewRedLock toSeconds key confs opts = .ok r ∧ r.locks.length = confs.length) := by
  have hb := acquireBudget_exact confs.length (perNodeTimeout opts) (perNodeTimeout_pos opts) hfit
  obtain ⟨ht, he⟩ := repairRedLock_timeout opts
  unfold configured at ht he
  have key1 : ∀ r, NewRedLock toSeconds key confs opts = .ok r → r.locks.length = confs.length := by
    intro r hr
    rw [NewRedLock_ok_locks toSeconds key confs opts r hr]
    simp
  by_cases hN : confs.length < 3
  · have herr : NewRedLock toSeconds key confs opts
        = .error "can not use redLock less then 3 nodes" := by
      unfold NewRedLock
      rw [if_pos hN]
    refine ⟨⟨fun _ => Or.inl hN, fun _ => ⟨_, herr⟩⟩, fun h => absurd (Or.inl hN) h⟩
  · by_cases hB : (configured opts).expireDuration > 0 ∧
        (confs.length : Int) * perNodeTimeout opts * 10 > (configured opts).expireDuration
    · have herr : NewRedLock toSeconds key confs opts
          = .error "expire thresholds of single node is too lang" := by
        unfold NewRedLock
        rw [if_neg hN]
        simp only [ht, he, hb]
        unfold configured at hB
        rw [if_pos hB]
      refine ⟨⟨fun _ => Or.inr hB, fun _ => ⟨_, herr⟩⟩, fun h => absurd (Or.inr hB) h⟩
    · have hok : ∃ r, NewRedLock toSeconds key confs opts = .ok r := by
        unfold NewRedLock
        rw [if_neg hN]
        simp only [ht, he, hb]
        unfold configured at hB
        rw [if_neg hB]
        exact ⟨_, rfl⟩
      obtain ⟨r, hr⟩ := hok
      refine ⟨⟨fun ⟨e, h⟩ => ?_, fun h => ?_⟩, fun _ => ⟨r, hr, key1 r hr⟩⟩
      · rw [hr] at h
        exact absurd h (by simp)
      · rcases h with h | h
        · exact absurd h hN
        · exact absurd h hB

/-- Scenario S6: three nodes, 50 ms per node and an expire duration of 1 s are
rejected, since 1.5 s > 1 s. -/
theorem NewRedLock_error_iff_witness :
    (s6Confs.length : Int) * perNodeTimeout s6Opts * 10 ≤ maxInt64 ∧
    (s6Confs.length : Int) * perNodeTimeout s6Opts * 10 = 1500 * Millisecond ∧
    ∃ e, NewRedLock wholeSeconds "job" s6Confs s6Opts = .error e :=
  ⟨by decide, by decide,
    (NewRedLock_error_iff wholeSeconds "job" s6Confs s6Opts (by decide)).1.2
      (Or.inr ⟨by decide, by decide⟩)⟩

theorem applyLockOptions_append (init : List LockOption) (o : LockOption) (l : LockOptions) :
    applyLockOptions (init ++ [o]) l = o.run (applyLockOptions init l) := by
  simp [applyLockOptions, List.foldl_append]

theorem lastSome_append {α β : Type} (f : α → Option β) (init : List α) (a : α) :
    lastSome f (init ++ [a]) = (f a).or (lastSome f init) := by
  unfold lastSome
  rw [List.reverse_append]
  cases h : f a <;> simp [List.findSome?, h]

/-- What a list of lock options leaves in the four fields of `LockOptions`. -/
theorem applyLockOptions_fields (opts : List LockOption) (l : LockOptions) :
    (applyLockOptions opts l).expireSeconds = (configuredExpire opts).getD l.expireSeconds ∧
    (applyLockOptions opts l).blockWaitingSeconds
      = (lastSome (fun o => match o with
          | LockOption.WithBlockWaitingSeconds v => some v
          | _ => none) opts).getD l.blockWaitingSeconds ∧
    ((applyLockOptions opts l).isBlock = true ↔
      (l.isBlock = true ∨ LockOption.WithBlock ∈ opts)) ∧
    (applyLockOptions opts l).watchDogMode = l.watchDogMode := by
  induction opts using List.reverseRecOn with
  | nil => simp [applyLockOptions, configuredExpire, lastSome]
  | append_singleton init o ih =>
    obtain ⟨h1, h2, h3, h4⟩ := ih
    rw [applyLockOptions_append]
    unfold configuredExpire at h1 ⊢
    rw [lastSome_append, lastSome_append]
    cases o with
    | WithBlock =>
      refine ⟨by simpa [LockOption.run] using h1, by simpa [LockOption.run] using h2, ?_,
        by simpa [LockOption.run] using h4⟩
      simp [LockOption.run]
    | WithBlockWaitingSeconds n =>
      refine ⟨by simpa [LockOption.run] using h1, by simp [LockOption.run], ?_,
        by simpa [LockOption.run] using h4⟩
      simpa [LockOption.run] using h3
    | WithExpireSeconds n =>
      refine ⟨by simp [LockOption.run], by simpa [LockOption.run] using h2, ?_,
        by simpa [LockOption.run] using h4⟩
      simpa [LockOption.run] using h3

/-- The four fields of `repairLock l`, read off the source. -/
theorem repairLock_fields (l : LockOptions) :
    (repairLock l).expireSeconds = (if 0 < l.expireSeconds then l.expireSeconds else 30) ∧
    (repairLock l).watchDogMode = (if 0 < l.expireSeconds then l.watchDogMode else true) ∧
    (repairLock l).blockWaitingSeconds
      = (if l.isBlock = true ∧ l.blockWaitingSeconds ≤ 0 then 5 else l.blockWaitingSeconds) ∧
    (repairLock l).isBlock = l.isBlock := by
  cases hb : l.isBlock <;> by_cases h1 : l.blockWaitingSeconds ≤ 0 <;>
    by_cases h2 : 0 < l.expireSeconds <;>
    simp [repairLock, DefaultLockExpireSeconds, hb, h1, h2]

/-- C8. For every list of lock options applied to the zero value and followed
by `repairLock`: a configured ExpireSeconds > 0 is the TTL and watchdog mode
stays off; with ExpireSeconds omitted the TTL is 30 and watchdog mode is on;
with blocking enabled and BlockWaitingSeconds ≤ 0 the latter becomes 5, and
otherwise it keeps its configured value; the Block flag is as configured; the
TTL is always > 0. -/
theorem repairLock_options (opts : List LockOption) :
    (∀ v, configuredExpire opts = some v → 0 < v →
      (repairLock (applyLockOptions opts {})).expireSeconds = v ∧
      (repairLock (applyLockOptions opts {})).watchDogMode = false) ∧
    (configuredExpire opts = none →
      (repairLock (applyLockOptions opts {})).expireSeconds = 30 ∧
      (repairLock (applyLockOptions opts {})).watchDogMode = true) ∧
    (LockOption.WithBlock ∈ opts ∧ configuredBlockWaiting opts ≤ 0 →
      (repairLock (applyLockOptions opts {})).blockWaitingSeconds = 5) ∧
    (¬ (LockOption.WithBlock ∈ opts ∧ configuredBlockWaiting opts ≤ 0) →
      (repairLock (applyLockOptions opts {})).blockWaitingSeconds
        = configuredBlockWaiting opts) ∧
    ((repairLock (applyLockOptions opts {})).isBlock = true ↔ LockOption.WithBlock ∈ opts) ∧
    0 < (repairLock (applyLockOptions opts {})).expireSeconds := by
  obtain ⟨h1, h2, h3, h4⟩ := applyLockOptions_fields opts {}
  have h2' : (applyLockOptions opts {}).blockWaitingSeconds = configuredBlockWaiting opts := h2
  have h3' : (applyLockOptions opts {}).isBlock = true ↔ LockOption.WithBlock ∈ opts := by
    simpa using h3
  obtain ⟨r1, r2, r3, r4⟩ := repairLock_fields (applyLockOptions opts {})
  rw [r1, r2, r3, r4, ← h2', ← h3']
  generalize applyLockOptions opts {} = l at h1 h4
  simp only at h1 h4
  refine ⟨?_, ?_, ?_, ?_, Iff.rfl, ?_⟩
  · intro v hv hpos
    rw [hv] at h1
    simp only [Option.getD_some] at h1
    rw [h1, if_pos hpos, if_pos hpos]
    exact ⟨rfl, h4⟩
  · intro hv
    rw [hv] at h1
    simp only [Option.getD_none] at h1
    rw [h1]
    simp
  · intro hb
    rw [if_pos hb]
  · intro hb
    rw [if_neg hb]
  · split
    · assumption
    · decide

/-- A run of C8: blocking with no waiting budget and no ExpireSeconds. -/
theorem repairLock_options_witness :
    configuredExpire [LockOption.WithBlock] = none ∧
    (repairLock (applyLockOptions [LockOption.WithBlock] {})).expireSeconds = 30 ∧
    (repairLock (applyLockOptions [LockOption.WithBlock] {})).watchDogMode = true ∧
    (repairLock (applyLockOptions [LockOption.WithBlock] {})).blockWaitingSeconds = 5 :=
  ⟨by decide, ((repairLock_options [LockOption.WithBlock]).2.1 (by decide)).1,
    ((repairLock_options [LockOption.WithBlock]).2.1 (by decide)).2,
    (repairLock_options [LockOption.WithBlock]).2.2.1 ⟨by decide, by decide⟩⟩

/-- The fields of `repairClient c`, read off the source: a default replaces a
setting only when the setting is negative. -/
theorem repairClient_fields (c : ClientOptions) :
    (repairClient c).maxIdle = (if c.maxIdle < 0 then 20 else c.maxIdle) ∧
    (repairClient c).idleTimeoutSeconds
      = (if c.idleTimeoutSeconds < 0 then 10 else c.idleTimeoutSeconds) ∧
    (repairClient c).maxActive = (if c.maxActive < 0 then 100 else c.maxActive) ∧
    (repairClient c).wait = c.wait ∧ (repairClient c).network = c.network ∧
    (repairClient c).address = c.address ∧ (repairClient c).password = c.password := by
  by_cases h1 : c.maxIdle < 0 <;> by_cases h2 : c.idleTimeoutSeconds < 0 <;>
    by_cases h3 : c.maxActive < 0 <;>
    simp [repairClient, DefaultMaxIdle, DefaultIdleTimeoutSeconds, DefaultMaxActive, h1, h2, h3]

/-- The pool of the client `NewClient` returns, in terms of the configured options. -/
theorem NewClient_pool (network address password : String) (opts : List ClientOption) :
    (NewClient network address password opts).pool
      = getRedisPool (repairClient (configuredClient network address password opts)) := rfl

/-- C9, the code at the failing input: a client created with no options has a pool
with MaxIdle = 0, IdleTimeout = 0 and MaxActive = 0, not the defaults 20, 10 s
and 100 of the constants in option.go. -/
theorem NewClient_no_options_pool :
    (NewClient "tcp" "127.0.0.1:6379" "" []).pool.MaxIdle = 0 ∧
    (NewClient "tcp" "127.0.0.1:6379" "" []).pool.IdleTimeout = 0 ∧
    (NewClient "tcp" "127.0.0.1:6379" "" []).pool.MaxActive = 0 ∧
    (NewClient "tcp" "127.0.0.1:6379" "" []).pool.Wait = false ∧
    DefaultMaxIdle = 20 ∧ DefaultIdleTimeoutSeconds = 10 ∧ DefaultMaxActive = 100 := by
  refine ⟨by decide, by decide, by decide, by decide, rfl, rfl, rfl⟩

theorem clientOptions_run_conn (opts : List ClientOption) (c : ClientOptions) :
    (opts.foldl (fun c opt => opt.run c) c).network = c.network ∧
    (opts.foldl (fun c opt => opt.run c) c).address = c.address ∧
    (opts.foldl (fun c opt => opt.run c) c).password = c.password := by
  induction opts generalizing c with
  | nil => simp
  | cons o t ih =>
    simp only [List.foldl_cons]
    obtain ⟨h1, h2, h3⟩ := ih (o.run c)
    rw [h1, h2, h3]
    cases o <;> simp [ClientOption.run]

/-- The dial a client issues: `NewClient`'s first argument is the network, its
second the address. -/
theorem NewClient_dial (network address password : String) (opts : List ClientOption) :
    (NewClient network address password opts).pool.Dial ()
      = if address = "" then none
        else some { network := network, address := address,
                    dialPassword := if password.length > 0 then some password else none } := by
  obtain ⟨h1, h2, h3⟩ := clientOptions_run_conn opts
    { network := network, address := address, password := password }
  obtain ⟨_, _, _, _, r1, r2, r3⟩ := repairClient_fields
    (configuredClient network address password opts)
  unfold configuredClient at r1 r2 r3
  rw [NewClient_pool]
  unfold configuredClient
  simp only [getRedisPool, getRedisConn, r1, r2, r3, h1, h2, h3]

/-- The dials of the children of every RedLock that `NewRedLock` returns: the i-th
child dials network = confs[i].Address and address = confs[i].Network. -/
theorem NewRedLock_child_dials (toSeconds : Int → Int) (key : String)
    (confs : List SingleNodeConf) (opts : List RedLockOption) (r : RedLock)
    (h : NewRedLock toSeconds key confs opts = .ok r) :
    r.locks.map (fun l => l.client.pool.Dial ())
      = confs.map (fun conf =>
          if conf.Network = "" then none
          else some { network := conf.Address, address := conf.Network,
                      dialPassword :=
                        if conf.Password.length > 0 then some conf.Password else none }) := by
  rw [NewRedLock_ok_locks toSeconds key confs opts r h, List.map_map]
  apply List.map_congr_left
  intro conf _
  simp only [Function.comp, NewRedisLock]
  exact NewClient_dial conf.Address conf.Network conf.Password conf.Opts

/-- C10, the code at the failing input: for the configuration with Network "tcp",
Address "10.0.0.1:6379" and Password "secret", the first child of the RedLock
dials network "10.0.0.1:6379" at address "tcp". -/
theorem NewRedLock_swaps_network_address :
    ∃ r, NewRedLock wholeSeconds "job" sampleConfs [] = .ok r ∧
      (r.locks.map (fun l => l.client.pool.Dial ())).head?
        = some (some { network := "10.0.0.1:6379", address := "tcp",
                       dialPassword := some "secret" }) := by
  refine ⟨_, rfl, ?_⟩
  decide

end Redis

namespace Etcd

/-- A mutex that `Unlock` has just released, or that is fresh, is refused by
`Unlock` without touching the backend. -/
theorem Unlock_released {σ : Type} (b : Backend σ) (m : Mutex) (ctx : Ctx) (w : World σ)
    (h : m.myRev ≤ 0) : Unlock b m ctx w = (some Err.ErrLockReleased, m, w) := by
  unfold Unlock
  rw [if_pos (Or.inr (Or.inl h))]

/-- The state after an `Unlock` that returned nil. -/
theorem Unlock_nil_state {σ : Type} (b : Backend σ) (m m1 : Mutex) (ctx : Ctx)
    (w w1 : World σ) (h : Unlock b m ctx w = (none, m1, w1)) :
    m1 = { m with myKey := tombstone, myRev := -1 } ∧
    w1 = (World.delete b w ctx m.myKey).2 := by
  unfold Unlock at h
  split at h
  · exact absurd (congrArg Prod.fst h) (by simp)
  · split at h
    · exact absurd (congrArg Prod.fst h) (by simp)
    · simp only at h
      split at h
      · exact absurd (congrArg Prod.fst h) (by simp)
      · simp only [Prod.mk.injEq, true_and] at h
        exact ⟨h.1.symm, h.2.symm⟩

/-- C4. Idempotent Unlock: after an `Unlock` that returned nil, the next `Unlock`
on the same mutex returns ErrLockReleased, issues no backend call (the backend
state and the call log are unchanged) and leaves the mutex unchanged; the same
holds for a mutex fresh from `NewMutex`. -/
theorem Unlock_idempotent {σ : Type} (b : Backend σ) :
    (∀ (m m1 : Mutex) (ctx : Ctx) (w w1 : World σ), Unlock b m ctx w = (none, m1, w1) →
      ∀ ctx1, Unlock b m1 ctx1 w1 = (some Err.ErrLockReleased, m1, w1)) ∧
    (∀ (s : Session) (pfx : String) (ctx : Ctx) (w : World σ),
      Unlock b (NewMutex s pfx) ctx w = (some Err.ErrLockReleased, NewMutex s pfx, w)) := by
  refine ⟨?_, ?_⟩
  · intro m m1 ctx w w1 h ctx1
    obtain ⟨hm, _⟩ := Unlock_nil_state b m m1 ctx w w1 h
    exact Unlock_released b m1 ctx1 w1 (by rw [hm]; show (-1 : Int) ≤ 0; decide)
  · intro s pfx ctx w
    exact Unlock_released b (NewMutex s pfx) ctx w (by show (-1 : Int) ≤ 0; decide)

/-- A run of C4: a held mutex is unlocked, the backend deleting its key; the second
`Unlock` is refused. -/
theorem Unlock_idempotent_witness :
    Unlock scripted heldMutex 1 (startWith [Reply.delete none])
      = (none, { heldMutex with myKey := tombstone, myRev := -1 },
          { st := [], log := [Event.delete 1 "/jobs/x/1234" none] }) ∧
    Unlock scripted { heldMutex with myKey := tombstone, myRev := -1 } 2
        { st := [], log := [Event.delete 1 "/jobs/x/1234" none] }
      = (some Err.ErrLockReleased, { heldMutex with myKey := tombstone, myRev := -1 },
          { st := [], log := [Event.delete 1 "/jobs/x/1234" none] }) :=
  ⟨rfl, (Unlock_idempotent scripted).1 heldMutex _ 1 (startWith [Reply.delete none]) _ rfl 2⟩

/-- A run that returned nil ended with a query that found no key. -/
theorem WaitRun_nil_last {σ : Type} {b : Backend σ} {ctx : Ctx} {pfx : String} {R : Int}
    {st st1 : σ} {tr : List Event} {res : Option Err}
    (h : WaitRun b ctx pfx R st tr res st1) (hres : res = none) :
    ∃ hdr, tr.getLast? = some (lastCreateQuery ctx pfx R (.ok { Header := hdr, Kvs := [] })) := by
  induction h with
  | queryFailed st st1 e _ => exact absurd hres (by simp)
  | noKey st st1 hdr _ => exact ⟨hdr, rfl⟩
  | waitFailed st st1 st2 resp kv rest rs e _ _ _ _ _ => exact absurd hres (by simp)
  | deleted st st1 st2 st3 resp kv rest stream tr res _ _ _ _ hrun ih =>
    obtain ⟨hdr, hl⟩ := ih hres
    refine ⟨hdr, ?_⟩
    cases tr with
    | nil => simp at hl
    | cons x xs =>
      rw [List.getLast?_cons_cons, List.getLast?_cons_cons]
      exact hl

/-- The test of `waitDelete` for a DELETE event, in terms of the stream. -/
theorem any_hasDelete_iff (stream : WatchStream) :
    stream.delivered.any WatchResponse.hasDelete = true ↔ stream.deletionSeen := by
  unfold WatchStream.deletionSeen WatchResponse.hasDelete
  simp only [List.any_eq_true, decide_eq_true_eq]
  constructor
  · rintro ⟨wr, hwr, t, ht, rfl⟩
    exact ⟨wr, hwr, ht⟩
  · rintro ⟨wr, hwr, ht⟩
    exact ⟨wr, hwr, _, ht, rfl⟩

/-- The value `waitDelete` computes on a channel that closed without a DELETE event
is the wait's error. -/
theorem waitDeleteOn_closed_failure (rs : List WatchResponse) (cerr : Option Err)
    (oe : Option Err) (hd : ¬ (WatchStream.closed rs).deletionSeen)
    (h : waitDeleteOn (WatchStream.closed rs) cerr = .ok oe) :
    ∃ e, oe = some e ∧ WaitFailure rs cerr e := by
  have hany : ¬ (rs.any WatchResponse.hasDelete = true) := fun hc =>
    hd ((any_hasDelete_iff (WatchStream.closed rs)).1 hc)
  unfold waitDeleteOn at h
  simp only [hany] at h
  unfold lastWatchErr at h
  cases hl : rs.getLast? with
  | some wr =>
    obtain ⟨init, hinit⟩ := List.getLast?_eq_some_iff.1 hl
    rw [hl] at h
    simp only at h
    cases he : wr.err with
    | some e =>
      rw [he] at h
      simp only [Bool.false_eq_true, if_false, Except.ok.injEq] at h
      exact ⟨e, h.symm, WaitFailure.watchError init wr e hinit he⟩
    | none =>
      rw [he] at h
      have hno : ∀ init1 wr1, rs = init1 ++ [wr1] → wr1.err = none := by
        intro init1 wr1 h1
        have h2 : rs.getLast? = some wr1 := by rw [h1]; exact List.getLast?_concat init1
        rw [hl] at h2
        cases h2
        exact he
      cases hc : cerr with
      | some e =>
        rw [hc] at h
        simp only [Bool.false_eq_true, if_false, Except.ok.injEq] at h
        exact ⟨e, h.symm, WaitFailure.contextError e hno rfl⟩
      | none =>
        rw [hc] at h
        simp only [Bool.false_eq_true, if_false, Except.ok.injEq] at h
        exact ⟨Err.lostWatcher, h.symm, WaitFailure.lostWatcher hno rfl⟩
  | none =>
    rw [hl] at h
    simp only at h
    have hno : ∀ init1 wr1, rs = init1 ++ [wr1] → wr1.err = none := by
      intro init1 wr1 h1
      have h2 : rs.getLast? = some wr1 := by rw [h1]; exact List.getLast?_concat init1
      rw [hl] at h2
      cases h2
    cases hc : cerr with
    | some e =>
      rw [hc] at h
      simp only [Bool.false_eq_true, if_false, Except.ok.injEq] at h
      exact ⟨e, h.symm, WaitFailure.contextError e hno rfl⟩
    | none =>
      rw [hc] at h
      simp only [Bool.false_eq_true, if_false, Except.ok.injEq] at h
      exact ⟨Err.lostWatcher, h.symm, WaitFailure.lostWatcher hno rfl⟩

/-- What `waitDelete` computes on a channel, in terms of the stream: nil exactly
when a DELETE event is delivered; otherwise the channel closed and the value is
the wait's error. -/
theorem waitDeleteOn_ok (stream : WatchStream) (cerr : Option Err) (oe : Option Err)
    (h : waitDeleteOn stream cerr = .ok oe) :
    (stream.deletionSeen ∧ oe = none) ∨
    (¬ stream.deletionSeen ∧ ∃ rs e, stream = WatchStream.closed rs ∧ oe = some e ∧
      WaitFailure rs cerr e) := by
  by_cases hd : stream.deletionSeen
  · left
    refine ⟨hd, ?_⟩
    have hany := (any_hasDelete_iff stream).2 hd
    cases stream with
    | closed rs =>
      simp only [WatchStream.delivered] at hany
      simp only [waitDeleteOn, hany, if_true, Except.ok.injEq] at h
      exact h.symm
    | hang rs =>
      simp only [WatchStream.delivered] at hany
      simp only [waitDeleteOn, hany, if_true, Except.ok.injEq] at h
      exact h.symm
  · right
    refine ⟨hd, ?_⟩
    cases stream with
    | closed rs =>
      obtain ⟨e, he, hf⟩ := waitDeleteOn_closed_failure rs cerr oe hd h
      exact ⟨rs, e, rfl, he, hf⟩
    | hang rs =>
      have hany : ¬ (rs.any WatchResponse.hasDelete = true) := fun hc =>
        hd ((any_hasDelete_iff (WatchStream.hang rs)).1 hc)
      simp only [waitDeleteOn, hany] at h
      exact absurd h (by simp)

/-- The calls of every run of `waitDeletes` that returns. -/
theorem waitDeletes_calls {σ : Type} (b : Backend σ) (ctx : Ctx) (pfx : String) (R : Int)
    (fuel : Nat) (w w1 : World σ) (res : Option Err)
    (h : waitDeletes b ctx pfx R fuel w = .ok (res, w1)) :
    ∃ tr, w1.log = w.log ++ tr ∧ WaitRun b ctx pfx R w.st tr res w1.st := by
  induction fuel generalizing w with
  | zero => exact absurd h (by simp [waitDeletes])
  | succ n ih =>
    rw [waitDeletes] at h
    simp only [World.get] at h
    rcases hg : b.Get w.st ctx pfx (GetOpts.lastCreateMaxRev R) with ⟨reply, st1⟩
    rw [hg] at h
    simp only at h
    cases reply with
    | error e =>
      simp only [Except.ok.injEq, Prod.mk.injEq] at h
      obtain ⟨rfl, rfl⟩ := h
      exact ⟨_, rfl, WaitRun.queryFailed w.st st1 e hg⟩
    | ok resp =>
      simp only at h
      cases hk : resp.Kvs with
      | nil =>
        rw [hk] at h
        simp only [Except.ok.injEq, Prod.mk.injEq] at h
        obtain ⟨rfl, rfl⟩ := h
        have hresp : resp = { Header := resp.Header, Kvs := [] } := by
          cases resp
          simp only at hk
          rw [hk]
        rw [hresp] at hg
        refine ⟨[lastCreateQuery ctx pfx R (.ok { Header := resp.Header, Kvs := [] })], ?_,
          WaitRun.noKey w.st st1 resp.Header hg⟩
        show w.log ++ [Event.get ctx pfx (GetOpts.lastCreateMaxRev R) (.ok resp)] = _
        rw [hresp]
        rfl
      | cons kv rest =>
        rw [hk] at h
        simp only [waitDelete, World.watch] at h
        rcases hwt : b.Watch st1 ctx kv.Key resp.Header.Revision with ⟨stream, st2⟩
        rw [hwt] at h
        simp only at h
        cases hw : waitDeleteOn stream (b.ctxErr st2 ctx) with
        | error s =>
          rw [hw] at h
          exact absurd h (by simp)
        | ok oe =>
          rw [hw] at h
          rcases waitDeleteOn_ok stream _ oe hw with ⟨hseen, rfl⟩ | ⟨hnot, rs, e, rfl, rfl, hf⟩
          · simp only at h
            obtain ⟨tr, htr, hrun⟩ := ih _ h
            refine ⟨_, ?_, WaitRun.deleted w.st st1 st2 w1.st resp kv rest stream tr res
              hg hk hwt hseen hrun⟩
            rw [htr]
            simp only [List.append_assoc]
            rfl
          · simp only [Except.ok.injEq, Prod.mk.injEq] at h
            obtain ⟨rfl, rfl⟩ := h
            refine ⟨_, ?_, WaitRun.waitFailed w.st st1 st2 resp kv rest rs e hg hk hwt hnot hf⟩
            simp only [List.append_assoc]
            rfl

/-- More fuel does not change the result of a run of `waitDeletes` that returns. -/
theorem waitDeletes_fuel_mono {σ : Type} (b : Backend σ) (ctx : Ctx) (pfx : String) (R : Int)
    (fuel extra : Nat) (w : World σ) (out : Option Err × World σ)
    (h : waitDeletes b ctx pfx R fuel w = .ok out) :
    waitDeletes b ctx pfx R (fuel + extra) w = .ok out := by
  induction fuel generalizing w with
  | zero => exact absurd h (by simp [waitDeletes])
  | succ n ih =>
    rw [Nat.add_right_comm]
    rw [waitDeletes] at h ⊢
    cases hg : (World.get b w ctx pfx (GetOpts.lastCreateMaxRev R)).1 with
    | error e => rw [hg] at h; exact h
    | ok resp =>
      rw [hg] at h
      simp only at h ⊢
      cases hk : resp.Kvs with
      | nil => rw [hk] at h; exact h
      | cons kv rest =>
        rw [hk] at h
        simp only at h ⊢
        cases hw : waitDelete b (World.get b w ctx pfx (GetOpts.lastCreateMaxRev R)).2 ctx
            kv.Key resp.Header.Revision with
        | error s => rw [hw] at h; exact h
        | ok p =>
          rw [hw] at h
          obtain ⟨oe, w3⟩ := p
          cases oe with
          | some e => exact h
          | none => exact ih w3 h

/-- C7. No predecessor skip: every run of `waitDeletes(pfx, R)` that returns issues
only range queries for the key under `pfx` with the largest create revision ≤ R,
each query that returns a key being followed by the watch of exactly that key
from the query's header revision; the run goes on to the next query only when
that watch delivered a DELETE event; it returns nil only when its latest query
returned no key; a failed query ends the run with the query's error, and a watch
that closes without a DELETE event ends it with the wait's error (the last watch
response's error, else the context's error, else lost-watcher), never with nil. -/
theorem waitDeletes_no_predecessor_skip {σ : Type} (b : Backend σ) (ctx : Ctx) (pfx : String)
    (R : Int) (fuel : Nat) (w w1 : World σ) (res : Option Err)
    (h : waitDeletes b ctx pfx R fuel w = .ok (res, w1)) :
    (∃ tr, w1.log = w.log ++ tr ∧ WaitRun b ctx pfx R w.st tr res w1.st) ∧
    (res = none → ∃ hdr, w1.log.getLast?
      = some (lastCreateQuery ctx pfx R (.ok { Header := hdr, Kvs := [] }))) ∧
    (∀ extra, waitDeletes b ctx pfx R (fuel + extra) w = .ok (res, w1)) := by
  obtain ⟨tr, htr, hrun⟩ := waitDeletes_calls b ctx pfx R fuel w w1 res h
  refine ⟨⟨tr, htr, hrun⟩, ?_, fun extra => waitDeletes_fuel_mono b ctx pfx R fuel extra w _ h⟩
  intro hres
  obtain ⟨hdr, hl⟩ := WaitRun_nil_last hrun hres
  refine ⟨hdr, ?_⟩
  rw [htr]
  cases tr with
  | nil => simp at hl
  | cons x xs => rw [List.getLast?_append_of_ne_nil _ (by simp)]; exact hl

/-- Two runs of C7: the predecessor key is found, its deletion is seen, and the next
query finds no key; the predecessor key is found and its watch closes with an
error, which is returned. -/
theorem waitDeletes_no_predecessor_skip_witness :
    waitDeletes scripted 1 "/jobs/x/" 101 2
        (startWith [Reply.get (.ok predecessorFound), Reply.watch deleteSeen,
          Reply.get (.ok nothingFound)])
      = .ok (none, { st := [], log :=
          [lastCreateQuery 1 "/jobs/x/" 101 (.ok predecessorFound),
           Event.watch 1 "/jobs/x/aaaa" 103 deleteSeen,
           lastCreateQuery 1 "/jobs/x/" 101 (.ok nothingFound)] }) ∧
    waitDeletes scripted 1 "/jobs/x/" 101 1
        (startWith [Reply.get (.ok predecessorFound), Reply.watch watchBroken])
      = .ok (some (Err.backend "compacted"), { st := [], log :=
          [lastCreateQuery 1 "/jobs/x/" 101 (.ok predecessorFound),
           Event.watch 1 "/jobs/x/aaaa" 103 watchBroken] }) ∧
    ∃ hdr, [lastCreateQuery 1 "/jobs/x/" 101 (.ok predecessorFound),
           Event.watch 1 "/jobs/x/aaaa" 103 deleteSeen,
           lastCreateQuery 1 "/jobs/x/" 101 (.ok nothingFound)].getLast?
      = some (lastCreateQuery 1 "/jobs/x/" 101 (.ok { Header := hdr, Kvs := [] })) :=
  ⟨rfl, rfl, by
    have h := (waitDeletes_no_predecessor_skip scripted 1 "/jobs/x/" 101 2
      (startWith [Reply.get (.ok predecessorFound), Reply.watch deleteSeen,
        Reply.get (.ok nothingFound)]) _ none rfl).2.1 rfl
    exact h⟩

/-- C5 as stated fails: the acquire transaction commits behind an owner created at
revision 101 while my-rev is 102, the delete of my-key fails, and `TryLock`
returns the delete's error, not ErrLocked, with my-key and my-rev still set. -/
theorem TryLock_delete_error_counterexample :
    tryAcquire scripted freshMutex 1
        (startWith [Reply.txn (.ok behindOwner), Reply.delete (some (Err.backend "unavailable"))])
      = .ok (.ok behindOwner, queuedMutex,
          { st := [Reply.delete (some (Err.backend "unavailable"))],
            log := [Event.txn 1 acquireReq (.ok behindOwner)] }) ∧
    rangeKvs behindOwner 1 = some [{ Key := "/jobs/x/aaaa", CreateRevision := 101 }] ∧
    (101 : Int) ≠ queuedMutex.myRev ∧
    TryLock scripted freshMutex 1
        (startWith [Reply.txn (.ok behindOwner), Reply.delete (some (Err.backend "unavailable"))])
      = .ok (some (Err.backend "unavailable"), queuedMutex,
          { st := [], log := [Event.txn 1 acquireReq (.ok behindOwner),
              Event.delete 1 "/jobs/x/1234" (some (Err.backend "unavailable"))] }) ∧
    Err.backend "unavailable" ≠ Err.ErrLocked ∧
    queuedMutex.myKey ≠ tombstone ∧ queuedMutex.myRev ≠ -1 := by
  refine ⟨rfl, rfl, by decide, rfl, by decide, by decide, by decide⟩

/-- C5, amended. When the acquire transaction commits and reports an owner key
whose create revision differs from my-rev, `TryLock` issues the delete of my-key;
if the delete succeeds it fails with ErrLocked and leaves the state rolled back
to released (my-key the tombstone, my-rev -1); if the delete fails it returns the
delete's error and leaves my-key and my-rev as the acquire set them. -/
theorem TryLock_not_owner {σ : Type} (b : Backend σ) (m m1 : Mutex) (ctx : Ctx)
    (w w1 : World σ) (resp : TxnResponse) (kv : KeyValue) (rest : List KeyValue)
    (ha : tryAcquire b m ctx w = .ok (.ok resp, m1, w1))
    (ho : rangeKvs resp 1 = some (kv :: rest))
    (hne : kv.CreateRevision ≠ m1.myRev) :
    ((World.delete b w1 ctx m1.myKey).1 = none →
      TryLock b m ctx w = .ok (some Err.ErrLocked,
        { m1 with myKey := tombstone, myRev := -1 }, (World.delete b w1 ctx m1.myKey).2)) ∧
    (∀ e, (World.delete b w1 ctx m1.myKey).1 = some e →
      TryLock b m ctx w = .ok (some e, m1, (World.delete b w1 ctx m1.myKey).2)) := by
  have hown : isOwner (kv :: rest) m1.myRev = false := by
    simp [isOwner, hne]
  refine ⟨?_, ?_⟩
  · intro hd
    unfold TryLock
    rw [ha]
    simp only [ho, hown, hd]
    rfl
  · intro e hd
    unfold TryLock
    rw [ha]
    simp only [ho, hown, hd]
    rfl

/-- A run of the amended C5: the delete of my-key succeeds and `TryLock` fails with
ErrLocked, the state rolled back. -/
theorem TryLock_not_owner_witness :
    TryLock scripted freshMutex 1 (startWith [Reply.txn (.ok behindOwner), Reply.delete none])
      = .ok (some Err.ErrLocked, { queuedMutex with myKey := tombstone, myRev := -1 },
          { st := [], log := [Event.txn 1 acquireReq (.ok behindOwner),
              Event.delete 1 "/jobs/x/1234" none] }) :=
  (TryLock_not_owner scripted freshMutex queuedMutex 1
    (startWith [Reply.txn (.ok behindOwner), Reply.delete none])
    { st := [Reply.delete none], log := [Event.txn 1 acquireReq (.ok behindOwner)] }
    behindOwner { Key := "/jobs/x/aaaa", CreateRevision := 101 } [] rfl rfl (by decide)).1 rfl

/-- The session-expired exit of `Lock` in general: when the acquire commits behind
another owner, the predecessor wait returns nil and the re-read of my-key is
empty, `Lock` returns ErrSessionExpired and the mutex is as the acquire left it. -/
theorem Lock_session_expired_state {σ : Type} (b : Backend σ) (fuel : Nat) (m m1 : Mutex)
    (ctx : Ctx) (w w1 w2 : World σ) (resp : TxnResponse) (ownerKey : List KeyValue)
    (gresp : GetResponse)
    (ha : tryAcquire b m ctx w = .ok (.ok resp, m1, w1))
    (ho : rangeKvs resp 1 = some ownerKey) (hown : isOwner ownerKey m1.myRev = false)
    (hw : waitDeletes b ctx m1.pfx (wrap64 (m1.myRev - 1)) fuel w1 = .ok (none, w2))
    (hg : (World.get b w2 ctx m1.myKey GetOpts.plain).1 = .ok gresp)
    (hk : gresp.Kvs = []) :
    Lock b fuel m ctx w = .ok (some Err.ErrSessionExpired, m1,
      (World.get b w2 ctx m1.myKey GetOpts.plain).2) := by
  unfold Lock
  rw [ha]
  simp only [ho, hown, hw, hg, hk]
  rfl

/-- C6, the code at the failing input (scenario S2): `Lock` returns
ErrSessionExpired with my-key "/jobs/x/1234" and my-rev 102 still set, and the
`Unlock` that follows issues a backend Delete of my-key and returns nil instead
of ErrLockReleased. -/
theorem Lock_session_expired_keeps_state :
    Lock scripted 2 freshMutex 1 (startWith sessionDeathScript)
      = .ok (some Err.ErrSessionExpired, queuedMutex,
          { st := [Reply.delete none], log := sessionDeathLog }) ∧
    queuedMutex.myRev = 102 ∧ queuedMutex.myKey = "/jobs/x/1234" ∧
    Unlock scripted queuedMutex 1 { st := [Reply.delete none], log := sessionDeathLog }
      = (none, { queuedMutex with myKey := tombstone, myRev := -1 },
          { st := [], log := sessionDeathLog ++ [Event.delete 1 "/jobs/x/1234" none] }) :=
  ⟨rfl, rfl, rfl, rfl⟩

end Etcd
